import Mathlib

/-!
Verification of the Parsley parser-combinator core (src/parser/core.rs),
shallowly embedded over `List Char`.

A parser consumes a character list and returns either a success, carrying
the remaining (unconsumed) input and a typed value, or a failure, carrying
the input at the failure point and a diagnostic message — the Rust
`ParseRes<'a, T> = Result<(&'a str, T), (&'a str, String)>` shape.

The repetition combinators `zero_or_more` / `one_or_more` are `while`
loops in Rust; here the shared loop is a fuel-indexed recursion
(`repeat_fuel`), one unit of fuel per successful iteration, with `none`
meaning the loop has not finished within the given fuel.  Termination of
the Rust loop on a given parser and input is then expressed as: some fuel
makes the loop finish, and becomes a theorem rather than an assumption.
Error-message texts follow the source, except that quote characters
inside messages are dropped and the literal interpolated into
`parse_literal`'s message is spliced with `String.mk`.
-/

namespace Parsley

/-- Rust `ParseRes<'a, T>`: `Ok((remaining, value))` or `Err((failed_input, message))`. -/
abbrev ParseRes (α : Type) : Type := Except (List Char × String) (List Char × α)

/-- Rust `Parser<'a, T>`: anything invokable on an input slice yielding a `ParseRes`. -/
abbrev Parser (α : Type) : Type := List Char → ParseRes α

/-- Decidable equality of results, to evaluate the claims on concrete inputs. -/
instance {ε α : Type} [DecidableEq ε] [DecidableEq α] : DecidableEq (Except ε α) := fun x y =>
  match x, y with
  | Except.ok a, Except.ok b =>
    if h : a = b then isTrue (congrArg Except.ok h)
    else isFalse (fun hc => h (by injection hc))
  | Except.error a, Except.error b =>
    if h : a = b then isTrue (congrArg Except.error h)
    else isFalse (fun hc => h (by injection hc))
  | Except.ok _, Except.error _ => isFalse (fun hc => Except.noConfusion hc)
  | Except.error _, Except.ok _ => isFalse (fun hc => Except.noConfusion hc)

/-- Rust helper `par_err(buf, msg)`: a failure at `buf` with message `msg`. -/
def par_err (buf : List Char) (msg : String) : ParseRes α :=
  Except.error (buf, msg)

/-- `core.rs::option`: try `p`; on success wrap the value in `some`; on
failure succeed with `none` and the original, unconsumed input. -/
def option (p : Parser α) : Parser (Option α) := fun buf =>
  match p buf with
  | Except.ok (buf2, o) => Except.ok (buf2, some o)
  | Except.error _ => Except.ok (buf, none)

/-- `core.rs::and`: run `a`, feed its remaining input to `b`, pair the
values; propagate the first failure without rewinding. -/
def and (a : Parser α) (b : Parser β) : Parser (α × β) := fun buf =>
  match a buf with
  | Except.error e => Except.error e
  | Except.ok (buf2, res_a) =>
    match b buf2 with
    | Except.error e => Except.error e
    | Except.ok (buf3, res_b) => Except.ok (buf3, (res_a, res_b))

/-- `core.rs::or`: try `parser1` on the input; on success return its
result; on failure run `parser2` on the same original input. -/
def or (parser1 : Parser α) (parser2 : Parser α) : Parser α := fun input =>
  match parser1 input with
  | Except.ok r => Except.ok r
  | Except.error _ => parser2 input

/-- The `while let Ok((buf, out)) = p.parse(buf_out)` loop shared by
`zero_or_more` and `one_or_more`, fuel-indexed: each successful iteration
of `p` spends one unit of fuel; `none` means the fuel ran out before the
loop finished, `some (buf_out, v)` is the loop state when `p` first
fails. -/
def repeat_fuel (p : Parser α) : Nat → List Char → Option (List Char × List α)
  | 0, _ => none
  | Nat.succ fuel, buf_out =>
    match p buf_out with
    | Except.error _ => some (buf_out, [])
    | Except.ok (buf, out) =>
      match repeat_fuel p fuel buf with
      | none => none
      | some (buf2, v) => some (buf2, out :: v)

/-- `core.rs::zero_or_more`: repeat `p` until a failure, returning the
accumulated values and the input left by the last success; never fails.
`none` = the Rust loop has not terminated within `fuel` iterations. -/
def zero_or_more (p : Parser α) (fuel : Nat) (buf : List Char) :
    Option (ParseRes (List α)) :=
  match repeat_fuel p fuel buf with
  | none => none
  | some (buf_out, v) => some (Except.ok (buf_out, v))

/-- `core.rs::one_or_more`: same loop as `zero_or_more`, but if the
accumulated vector is empty, fail at the original input. -/
def one_or_more (p : Parser α) (fuel : Nat) (buf : List Char) :
    Option (ParseRes (List α)) :=
  match repeat_fuel p fuel buf with
  | none => none
  | some (buf_out, v) =>
    if v.isEmpty then some (par_err buf ("none of pattern found in one_or_more"))
    else some (Except.ok (buf_out, v))

/-- `core.rs::map`: transform a success value through `functor`; pass
failures through unchanged. -/
def map (parser : Parser α) (functor : α → β) : Parser β := fun buf =>
  match parser buf with
  | Except.error e => Except.error e
  | Except.ok (b, out) => Except.ok (b, functor out)

/-- `core.rs::parse_literal`: Rust `buf.get(0..lit.len())` is `Some`
exactly when `lit.len() ≤ buf.len()`; succeed iff that prefix equals
`lit`, returning the literal as value and advancing past it. -/
def parse_literal (lit : List Char) : Parser (List Char) := fun buf =>
  if lit.length ≤ buf.length ∧ buf.take lit.length = lit then
    Except.ok (buf.drop lit.length, lit)
  else
    par_err buf ("Literal " ++ String.mk lit ++ " not found")

/-- `core.rs::parse_literals`: try each literal in order, first
exact-prefix match wins; fail if none matches. -/
def parse_literals : List (List Char) → Parser (List Char)
  | [], buf => par_err buf ("Literals not found")
  | lit :: lits, buf =>
    if lit.length ≤ buf.length ∧ buf.take lit.length = lit then
      Except.ok (buf.drop lit.length, buf.take lit.length)
    else
      parse_literals lits buf

/-- `core.rs::parse_tok_with_rule`: the first character must satisfy
`rule` (failing also on empty input); further characters are consumed
greedily while they satisfy `rule`; the post-loop emptiness check of the
source is kept verbatim. -/
def parse_tok_with_rule (rule : Char → Bool) : Parser (List Char) := fun buf =>
  match buf with
  | [] => par_err buf ("First character does not satisfy rule")
  | c :: rest =>
    if rule c then
      if (c :: rest.takeWhile rule).isEmpty then
        par_err buf ("Empty Token.")
      else
        Except.ok (buf.drop (c :: rest.takeWhile rule).length, c :: rest.takeWhile rule)
    else
      par_err buf ("First character does not satisfy rule")

/-- The `num_rule` closure of `core.rs::parse_number`: ASCII digit or dot. -/
def num_rule (c : Char) : Bool := c.isDigit || c == '.'

/-- The numeric value of a run of ASCII digits. -/
def digits_to_nat (l : List Char) : Nat :=
  l.foldl (fun n c => 10 * n + (c.toNat - 48)) 0

/-- Modelled from the spec: the scanned token is "parsed as a 64-bit
floating-point value" by Rust std `str::parse::<f64>`, code outside this
repository.  On tokens built from `num_rule` — ASCII digits and dots, the
only tokens `parse_number` can hand over — that parse succeeds iff the
token holds at least one digit and at most one dot, and its value is the
exact decimal the token denotes, modelled here as a rational. -/
def parse_f64 (tok : List Char) : Option ℚ :=
  if tok.all (fun c => c.isDigit || c == '.') ∧
      tok.count '.' ≤ 1 ∧ tok.any (fun c => c.isDigit) then
    some ((digits_to_nat (tok.takeWhile (fun c => !(c == '.'))) : ℚ) +
          (digits_to_nat ((tok.dropWhile (fun c => !(c == '.'))).drop 1) : ℚ) /
          (10 : ℚ) ^ ((tok.dropWhile (fun c => !(c == '.'))).drop 1).length)
  else none

/-- `core.rs::parse_number`: scan a token with `num_rule`, then parse it
as a 64-bit float; the numeric-parse failure carries the advanced input
(the `buf` shadowed by the scan), exactly as in the source. -/
def parse_number : Parser ℚ := fun buf =>
  match parse_tok_with_rule num_rule buf with
  | Except.error e => Except.error e
  | Except.ok (buf2, tok) =>
    match parse_f64 tok with
    | some num => Except.ok (buf2, num)
    | none => par_err buf2 ("could not parse into number")

/-- The `rule` closure of `core.rs::parse_identifier`: alphanumeric or
underscore.  Rust `char::is_alphanumeric` is Unicode-aware; `Char.isAlphanum`
covers its ASCII part, which covers every input the claims mention. -/
def ident_rule (c : Char) : Bool := c.isAlphanum || c == '_'

/-- `core.rs::KEYWORDS`: the fixed reserved-word table. -/
def KEYWORDS : List String := ["true", "false", "if", "eval"]

/-- Rust `tok.chars().next().unwrap().is_ascii_digit()`.  The `unwrap`
cannot panic because the token of a successful `parse_tok_with_rule` is
never empty (claim C9); the `[]` case is therefore arbitrary. -/
def first_is_digit : List Char → Bool
  | [] => false
  | c :: _ => c.isDigit

/-- `core.rs::parse_identifier`: scan a token with `ident_rule`, then
reject a leading ASCII digit, then reject keywords; both rejections carry
the advanced input (the shadowed `buf`), exactly as in the source. -/
def parse_identifier : Parser (List Char) := fun input =>
  match parse_tok_with_rule ident_rule input with
  | Except.error e => Except.error e
  | Except.ok (buf, tok) =>
    if first_is_digit tok then
      par_err buf ("identifier cannot start with digit")
    else if KEYWORDS.contains (String.mk tok) then
      par_err buf ("found keyword, cannot be used as identifier")
    else
      Except.ok (buf, tok)

/-- A parser every success of which strictly shortens the input. -/
def StrictlyConsuming (p : Parser α) : Prop :=
  ∀ buf b v, p buf = Except.ok (b, v) → b.length < buf.length

/-- A parser every success of which leaves a suffix of its input. -/
def SuffixPreserving (p : Parser α) : Prop :=
  ∀ buf b v, p buf = Except.ok (b, v) → b <:+ buf

/-! ## Helper lemmas -/

/-- `i.take s.length = s` ("`i` starts with `s`") forces `s` to fit in `i`. -/
theorem take_eq_imp_le (i s : List Char) (h : i.take s.length = s) :
    s.length ≤ i.length := by
  have hl := congrArg List.length h
  rw [List.length_take] at hl
  exact min_eq_left_iff.mp hl

/-- `parse_literal` of the empty literal succeeds without consuming. -/
theorem parse_literal_nil_ok (i : List Char) :
    parse_literal [] i = Except.ok (i, []) := by
  simp [parse_literal]

/-! ## Claims -/

/-- C10: for every input `i` (including the empty input), `parse_literal`
applied to the empty-string literal succeeds with value `""` and remaining
input exactly `i` — a primitive outside the token-rule family can match
zero characters and succeed without consuming anything. -/
theorem parse_literal_empty_literal (i : List Char) :
    parse_literal [] i = Except.ok (i, []) :=
  parse_literal_nil_ok i

/-- C3: for every literal `s` and input `i`, `parse_literal s` on `i`
succeeds with value `s` and remaining input `i` minus its first
`s.length` characters iff `i` starts with `s` (i.e. `i.take s.length = s`);
otherwise it fails and the failure carries the unconsumed input `i`. -/
theorem parse_literal_spec (s i : List Char) :
    (i.take s.length = s ∧ parse_literal s i = Except.ok (i.drop s.length, s)) ∨
    (¬ i.take s.length = s ∧
      parse_literal s i = par_err i ("Literal " ++ String.mk s ++ " not found")) := by
  by_cases h : i.take s.length = s
  · left
    refine ⟨h, ?_⟩
    have hle : s.length ≤ i.length := take_eq_imp_le i s h
    simp [parse_literal, hle, h]
  · right
    refine ⟨h, ?_⟩
    have hc : ¬ (s.length ≤ i.length ∧ i.take s.length = s) := fun hc => h hc.2
    simp only [parse_literal]
    rw [if_neg hc]

/-- C2: for every parser `p` and input `i`, `option p` on `i` returns a
success; and whenever `p` fails on `i`, that success carries the absent
value and a remaining input exactly equal to `i` (full rewind). -/
theorem option_spec {α : Type} (p : Parser α) (i : List Char) :
    (∃ b v, option p i = Except.ok (b, v)) ∧
    (∀ e, p i = Except.error e → option p i = Except.ok (i, none)) := by
  constructor
  · cases h : p i with
    | ok r =>
      obtain ⟨b, v⟩ := r
      exact ⟨b, some v, by simp [option, h]⟩
    | error e => exact ⟨i, none, by simp [option, h]⟩
  · intro e he
    simp [option, he]

/-- Witness for C2 at `p = parse_literal "a"`, `i = ""`. -/
theorem option_spec_witness :
    option (parse_literal ['a']) [] = Except.ok ([], none) :=
  (option_spec (parse_literal ['a']) []).2
    ([], "Literal " ++ String.mk ['a'] ++ " not found") (by decide)

/-- C4: for all parsers `p1, p2` and input `i`, `or p1 p2` returns `p1`'s
result when `p1` succeeds; when `p1` fails it runs `p2` on the same
original input `i`; it fails only when both fail, and then returns exactly
`p2`'s failure. -/
theorem or_spec {α : Type} (p1 p2 : Parser α) (i : List Char) :
    (∀ r, p1 i = Except.ok r → or p1 p2 i = Except.ok r) ∧
    (∀ e, p1 i = Except.error e → or p1 p2 i = p2 i) ∧
    (∀ e, or p1 p2 i = Except.error e →
      (∃ e1, p1 i = Except.error e1) ∧ p2 i = Except.error e) := by
  refine ⟨?_, ?_, ?_⟩
  · intro r h
    simp [or, h]
  · intro e h
    simp [or, h]
  · intro e h
    cases hp : p1 i with
    | ok r => simp [or, hp] at h
    | error e1 =>
      simp only [or, hp] at h
      exact ⟨⟨e1, rfl⟩, h⟩

/-- Witness for C4: `or(parse_literal "if", parse_literal "eval")` on
`"eval x"` hands the original input to the second literal parser. -/
theorem or_spec_witness :
    or (parse_literal ['i','f']) (parse_literal ['e','v','a','l'])
        ['e','v','a','l',' ','x'] =
      parse_literal ['e','v','a','l'] ['e','v','a','l',' ','x'] :=
  (or_spec (parse_literal ['i','f']) (parse_literal ['e','v','a','l'])
      ['e','v','a','l',' ','x']).2.1
    (['e','v','a','l',' ','x'], "Literal " ++ String.mk ['i','f'] ++ " not found")
    (by decide)

/-- The repetition loop never finishes on a parser that always succeeds
without consuming: `parse_literal []` succeeds on every input unchanged,
so the loop revisits the same state forever, whatever the fuel. -/
theorem repeat_fuel_nil_lit_none (buf : List Char) :
    ∀ fuel, repeat_fuel (parse_literal []) fuel buf = none := by
  intro fuel
  induction fuel with
  | zero => rfl
  | succ n ih => simp [repeat_fuel, parse_literal_nil_ok, ih]

/-- C1 counterexample: for `p = parse_literal ""` — whose successful
iterations do not shorten the remaining input — neither repetition loop
ever finishes on input `"abc"`: no amount of fuel completes
`zero_or_more` or `one_or_more`, refuting termination for every parser. -/
theorem repetition_can_diverge :
    (¬ ∃ fuel r, zero_or_more (parse_literal []) fuel ['a','b','c'] = some r) ∧
    (¬ ∃ fuel r, one_or_more (parse_literal []) fuel ['a','b','c'] = some r) := by
  constructor
  · rintro ⟨fuel, r, h⟩
    simp [zero_or_more, repeat_fuel_nil_lit_none ['a','b','c'] fuel] at h
  · rintro ⟨fuel, r, h⟩
    simp [one_or_more, repeat_fuel_nil_lit_none ['a','b','c'] fuel] at h

/-- A strictly consuming parser lets the repetition loop finish within
`|input| + 1` iterations. -/
theorem repeat_fuel_isSome {α : Type} (p : Parser α) (hp : StrictlyConsuming p) :
    ∀ fuel buf, buf.length < fuel → (repeat_fuel p fuel buf).isSome := by
  intro fuel
  induction fuel with
  | zero =>
    intro buf h
    exact absurd h (Nat.not_lt_zero _)
  | succ n ih =>
    intro buf h
    cases hpb : p buf with
    | error e => simp [repeat_fuel, hpb]
    | ok r =>
      obtain ⟨b, out⟩ := r
      have hlt : b.length < buf.length := hp buf b out hpb
      have hrec : (repeat_fuel p n b).isSome := ih b (by omega)
      obtain ⟨r2, hr2⟩ := Option.isSome_iff_exists.mp hrec
      obtain ⟨b2, v⟩ := r2
      simp [repeat_fuel, hpb, hr2]

/-- The token scanned by `parse_tok_with_rule` is never empty, so the
scan strictly shortens the input on every success. -/
theorem parse_tok_with_rule_consumes (rule : Char → Bool) :
    StrictlyConsuming (parse_tok_with_rule rule) := by
  intro buf b v h
  cases buf with
  | nil => simp [parse_tok_with_rule, par_err] at h
  | cons c rest =>
    simp only [parse_tok_with_rule] at h
    by_cases hr : rule c
    · rw [if_pos hr, if_neg (by simp)] at h
      simp only [Except.ok.injEq, Prod.mk.injEq] at h
      obtain ⟨hb, hv⟩ := h
      subst hb
      simp only [List.drop_succ_cons, List.length_drop, List.length_cons]
      omega
    · rw [if_neg hr] at h
      simp [par_err] at h

/-- C1 (amended): `zero_or_more p` and `one_or_more p` terminate for
every parser `p` every success of which strictly shortens the remaining
input — in particular for every `parse_tok_with_rule` scan, whose token
is never empty — completing within `|input| + 1` loop iterations.  (The
unrestricted claim fails: see the counterexample with `parse_literal ""`.) -/
theorem repetition_terminates :
    (∀ rule, StrictlyConsuming (parse_tok_with_rule rule)) ∧
    (∀ {α : Type} (p : Parser α), StrictlyConsuming p → ∀ buf,
      (zero_or_more p (buf.length + 1) buf).isSome ∧
      (one_or_more p (buf.length + 1) buf).isSome) := by
  constructor
  · exact parse_tok_with_rule_consumes
  · intro α p hp buf
    have hs := repeat_fuel_isSome p hp (buf.length + 1) buf (by omega)
    obtain ⟨r, hr⟩ := Option.isSome_iff_exists.mp hs
    obtain ⟨b, v⟩ := r
    constructor
    · simp [zero_or_more, hr]
    · simp only [one_or_more, hr]
      by_cases hv : v.isEmpty
      · simp [hv]
      · simp [hv]

/-- Witness for C1 (amended) at `p = parse_tok_with_rule num_rule`,
input `"3.14"`. -/
theorem repetition_terminates_witness :
    (zero_or_more (parse_tok_with_rule num_rule) 5 ['3','.','1','4']).isSome ∧
    (one_or_more (parse_tok_with_rule num_rule) 5 ['3','.','1','4']).isSome :=
  repetition_terminates.2 (parse_tok_with_rule num_rule)
    (repetition_terminates.1 num_rule) ['3','.','1','4']

/-- C5: `one_or_more p` and `zero_or_more p` run the identical loop
(they need fuel identically); `one_or_more p` fails exactly when zero
repetitions of `p` succeeded (the accumulated sequence is empty), and
whenever at least one repetition succeeded it returns the same value
sequence and the same remaining input as `zero_or_more p`. -/
theorem one_or_more_vs_zero_or_more {α : Type} (p : Parser α) (fuel : Nat)
    (buf : List Char) :
    (zero_or_more p fuel buf = none ↔ one_or_more p fuel buf = none) ∧
    (∀ b v, zero_or_more p fuel buf = some (Except.ok (b, v)) →
      ((∃ e, one_or_more p fuel buf = some (Except.error e)) ↔ v = []) ∧
      (v ≠ [] → one_or_more p fuel buf = some (Except.ok (b, v)))) := by
  cases hr : repeat_fuel p fuel buf with
  | none =>
    constructor
    · simp [zero_or_more, one_or_more, hr]
    · intro b v h
      simp [zero_or_more, hr] at h
  | some r =>
    obtain ⟨b0, v0⟩ := r
    constructor
    · constructor
      · intro h
        simp [zero_or_more, hr] at h
      · intro h
        simp only [one_or_more, hr] at h
        by_cases hv : v0.isEmpty
        · rw [if_pos hv] at h
          exact Option.noConfusion h
        · rw [if_neg hv] at h
          exact Option.noConfusion h
    · intro b v h
      simp only [zero_or_more, hr, Option.some.injEq, Except.ok.injEq,
        Prod.mk.injEq] at h
      obtain ⟨hb, hv⟩ := h
      subst hb
      subst hv
      cases v0 with
      | nil =>
        refine ⟨⟨fun _ => rfl, fun _ => ?_⟩, fun hne => absurd rfl hne⟩
        exact ⟨(buf, "none of pattern found in one_or_more"),
          by simp [one_or_more, hr, par_err]⟩
      | cons x xs =>
        constructor
        · constructor
          · rintro ⟨e, he⟩
            simp [one_or_more, hr] at he
          · intro hc
            exact absurd hc (by simp)
        · intro _
          simp [one_or_more, hr]

/-- Witness for C5: `one_or_more (parse_literal "ab")` on `"ababab_"`
returns three `"ab"`s and remaining `"_"`, as `zero_or_more` does. -/
theorem one_or_more_vs_zero_or_more_witness :
    one_or_more (parse_literal ['a','b']) 8 ['a','b','a','b','a','b','_'] =
      some (Except.ok (['_'], [['a','b'], ['a','b'], ['a','b']])) :=
  ((one_or_more_vs_zero_or_more (parse_literal ['a','b']) 8
      ['a','b','a','b','a','b','_']).2 ['_'] [['a','b'], ['a','b'], ['a','b']]
    (by decide)).2 (by decide)

/-- C9: the `"Empty Token."` branch of `parse_tok_with_rule` is
unreachable: no failure ever carries that message — the function already
failed when the input was empty or its first character broke the rule —
and every success carries a non-empty token, so the post-loop emptiness
check can never fire. -/
theorem empty_token_branch_unreachable (rule : Char → Bool) (buf : List Char) :
    (∀ b m, parse_tok_with_rule rule buf = Except.error (b, m) →
      m ≠ "Empty Token.") ∧
    (∀ b tok, parse_tok_with_rule rule buf = Except.ok (b, tok) → tok ≠ []) := by
  constructor
  · intro b m h
    cases buf with
    | nil =>
      simp only [parse_tok_with_rule, par_err, Except.error.injEq,
        Prod.mk.injEq] at h
      obtain ⟨_, hm⟩ := h
      subst hm
      decide
    | cons c rest =>
      simp only [parse_tok_with_rule] at h
      by_cases hr : rule c
      · rw [if_pos hr, if_neg (by simp)] at h
        exact Except.noConfusion h
      · rw [if_neg hr] at h
        simp only [par_err, Except.error.injEq, Prod.mk.injEq] at h
        obtain ⟨_, hm⟩ := h
        subst hm
        decide
  · intro b tok h
    cases buf with
    | nil => simp [parse_tok_with_rule, par_err] at h
    | cons c rest =>
      simp only [parse_tok_with_rule] at h
      by_cases hr : rule c
      · rw [if_pos hr, if_neg (by simp)] at h
        simp only [Except.ok.injEq, Prod.mk.injEq] at h
        obtain ⟨_, hv⟩ := h
        subst hv
        simp
      · rw [if_neg hr] at h
        simp [par_err] at h

/-- Witness for C9: a failing scan carries the first-character message,
never the empty-token one. -/
theorem empty_token_branch_unreachable_witness :
    ("First character does not satisfy rule" : String) ≠ "Empty Token." :=
  (empty_token_branch_unreachable (fun _ => false) ['a']).1 ['a']
    ("First character does not satisfy rule") (by decide)

/-- C7: whenever `parse_identifier`'s character scan succeeds producing
token `tok` and remainder `buf`, `parse_identifier` fails if `tok`'s
first character is an ASCII digit; else fails if `tok` exactly matches a
keyword-table entry; otherwise succeeds with `tok` as value.  In
particular it fails on input `"1abc"`. -/
theorem parse_identifier_spec :
    (∀ input buf tok,
      parse_tok_with_rule ident_rule input = Except.ok (buf, tok) →
      (first_is_digit tok = true →
        parse_identifier input =
          par_err buf ("identifier cannot start with digit")) ∧
      (first_is_digit tok = false → KEYWORDS.contains (String.mk tok) = true →
        parse_identifier input =
          par_err buf ("found keyword, cannot be used as identifier")) ∧
      (first_is_digit tok = false → KEYWORDS.contains (String.mk tok) = false →
        parse_identifier input = Except.ok (buf, tok))) ∧
    parse_identifier ['1','a','b','c'] =
      par_err [] ("identifier cannot start with digit") := by
  constructor
  · intro input buf tok h
    refine ⟨?_, ?_, ?_⟩
    · intro hd
      simp only [parse_identifier, h]
      rw [if_pos hd]
    · intro hd hk
      simp only [parse_identifier, h]
      rw [if_neg (by rw [hd]; exact Bool.false_ne_true), if_pos hk]
    · intro hd hk
      simp only [parse_identifier, h]
      rw [if_neg (by rw [hd]; exact Bool.false_ne_true),
        if_neg (by rw [hk]; exact Bool.false_ne_true)]
  · decide

/-- Witness for C7: the scan consumes `"true"` whole, and the token is
rejected as a keyword. -/
theorem parse_identifier_spec_witness :
    parse_identifier ['t','r','u','e'] =
      par_err [] ("found keyword, cannot be used as identifier") :=
  (parse_identifier_spec.1 ['t','r','u','e'] [] ['t','r','u','e']
    (by decide)).2.1 (by decide) (by decide)

/-- C8: `parse_number` scans a maximal run of digit-or-dot characters,
then value-parses that token: it fails (at the advanced input) whenever
the token fails the numeric value-parse — e.g. on input `"1.2.3"` — and
on input `"3.14abc"` it succeeds with value `3.14` and remaining
`"abc"`. -/
theorem parse_number_spec :
    (∀ input buf tok,
      parse_tok_with_rule num_rule input = Except.ok (buf, tok) →
      (parse_f64 tok = none →
        parse_number input = par_err buf ("could not parse into number")) ∧
      (∀ q, parse_f64 tok = some q →
        parse_number input = Except.ok (buf, q))) ∧
    parse_number ['1','.','2','.','3'] =
      par_err [] ("could not parse into number") ∧
    parse_number ['3','.','1','4','a','b','c'] =
      Except.ok (['a','b','c'], (157 : ℚ) / 50) := by
  refine ⟨?_, ?_, ?_⟩
  · intro input buf tok h
    constructor
    · intro hn
      simp [parse_number, h, hn]
    · intro q hq
      simp [parse_number, h, hq]
  · have htok : parse_tok_with_rule num_rule ['1','.','2','.','3'] =
        Except.ok ([], ['1','.','2','.','3']) := by decide
    have hval : parse_f64 ['1','.','2','.','3'] = none := by
      simp only [parse_f64]
      rw [if_neg (by decide)]
    simp [parse_number, htok, hval]
  · have htok : parse_tok_with_rule num_rule ['3','.','1','4','a','b','c'] =
        Except.ok (['a','b','c'], ['3','.','1','4']) := by decide
    have hval : parse_f64 ['3','.','1','4'] = some ((157 : ℚ) / 50) := by
      have hi : digits_to_nat
          (List.takeWhile (fun c => !(c == '.')) ['3','.','1','4']) = 3 := by decide
      have hf : digits_to_nat
          (List.drop 1 (List.dropWhile (fun c => !(c == '.')) ['3','.','1','4'])) = 14 := by
        decide
      have hl : (List.drop 1
          (List.dropWhile (fun c => !(c == '.')) ['3','.','1','4'])).length = 2 := by decide
      simp only [parse_f64]
      rw [if_pos (by decide), hi, hf, hl]
      norm_num
    simp [parse_number, htok, hval]

/-- Witness for C8: the token `"1.2.3"` (two dots) fails the numeric
value-parse, so `parse_number` fails at the advanced input. -/
theorem parse_number_spec_witness :
    parse_number ['1','.','2','.','3'] =
      par_err [] ("could not parse into number") :=
  (parse_number_spec.1 ['1','.','2','.','3'] [] ['1','.','2','.','3']
    (by decide)).1 (by decide)

theorem sp_parse_literal (s : List Char) : SuffixPreserving (parse_literal s) := by
  intro buf b v h
  simp only [parse_literal] at h
  split at h
  · simp only [Except.ok.injEq, Prod.mk.injEq] at h
    obtain ⟨hb, _⟩ := h
    subst hb
    exact List.drop_suffix _ _
  · simp [par_err] at h

theorem sp_parse_literals (lits : List (List Char)) :
    SuffixPreserving (parse_literals lits) := by
  induction lits with
  | nil =>
    intro buf b v h
    simp [parse_literals, par_err] at h
  | cons lit rest ih =>
    intro buf b v h
    simp only [parse_literals] at h
    split at h
    · simp only [Except.ok.injEq, Prod.mk.injEq] at h
      obtain ⟨hb, _⟩ := h
      subst hb
      exact List.drop_suffix _ _
    · exact ih buf b v h

theorem sp_parse_tok_with_rule (rule : Char → Bool) :
    SuffixPreserving (parse_tok_with_rule rule) := by
  intro buf b v h
  cases buf with
  | nil => simp [parse_tok_with_rule, par_err] at h
  | cons c rest =>
    simp only [parse_tok_with_rule] at h
    by_cases hr : rule c
    · rw [if_pos hr, if_neg (by simp)] at h
      simp only [Except.ok.injEq, Prod.mk.injEq] at h
      obtain ⟨hb, _⟩ := h
      subst hb
      exact List.drop_suffix _ _
    · rw [if_neg hr] at h
      simp [par_err] at h

theorem sp_option {α : Type} (p : Parser α) (hp : SuffixPreserving p) :
    SuffixPreserving (option p) := by
  intro buf b v h
  cases hpb : p buf with
  | ok r =>
    obtain ⟨b2, v2⟩ := r
    simp only [option, hpb, Except.ok.injEq, Prod.mk.injEq] at h
    obtain ⟨hb, _⟩ := h
    subst hb
    exact hp buf _ v2 hpb
  | error e =>
    simp only [option, hpb, Except.ok.injEq, Prod.mk.injEq] at h
    obtain ⟨hb, _⟩ := h
    subst hb
    exact List.suffix_refl _

theorem sp_and {α β : Type} (a : Parser α) (b : Parser β)
    (ha : SuffixPreserving a) (hb : SuffixPreserving b) :
    SuffixPreserving (and a b) := by
  intro buf bout v h
  cases hab : a buf with
  | error e => simp [and, hab] at h
  | ok r =>
    obtain ⟨buf2, ra⟩ := r
    cases hbb : b buf2 with
    | error e => simp [and, hab, hbb] at h
    | ok r2 =>
      obtain ⟨buf3, rb⟩ := r2
      simp only [and, hab, hbb, Except.ok.injEq, Prod.mk.injEq] at h
      obtain ⟨hb3, _⟩ := h
      subst hb3
      exact (hb buf2 _ rb hbb).trans (ha buf buf2 ra hab)

theorem sp_or {α : Type} (p1 p2 : Parser α) (h1 : SuffixPreserving p1)
    (h2 : SuffixPreserving p2) : SuffixPreserving (or p1 p2) := by
  intro buf b v h
  cases hp : p1 buf with
  | ok r =>
    obtain ⟨b1, v1⟩ := r
    simp only [or, hp, Except.ok.injEq, Prod.mk.injEq] at h
    obtain ⟨hb, hv⟩ := h
    subst hb
    exact h1 buf _ v1 hp
  | error e =>
    simp only [or, hp] at h
    exact h2 buf b v h

theorem sp_map {α β : Type} (p : Parser α) (f : α → β)
    (hp : SuffixPreserving p) : SuffixPreserving (map p f) := by
  intro buf b v h
  cases hpb : p buf with
  | error e => simp [map, hpb] at h
  | ok r =>
    obtain ⟨b2, v2⟩ := r
    simp only [map, hpb, Except.ok.injEq, Prod.mk.injEq] at h
    obtain ⟨hb, _⟩ := h
    subst hb
    exact hp buf _ v2 hpb

theorem sp_repeat_fuel {α : Type} (p : Parser α) (hp : SuffixPreserving p) :
    ∀ fuel buf b v, repeat_fuel p fuel buf = some (b, v) → b <:+ buf := by
  intro fuel
  induction fuel with
  | zero =>
    intro buf b v h
    exact Option.noConfusion h
  | succ n ih =>
    intro buf b v h
    cases hpb : p buf with
    | error e =>
      simp only [repeat_fuel, hpb, Option.some.injEq, Prod.mk.injEq] at h
      obtain ⟨hb, _⟩ := h
      subst hb
      exact List.suffix_refl _
    | ok r =>
      obtain ⟨buf2, out⟩ := r
      cases hrec : repeat_fuel p n buf2 with
      | none => simp [repeat_fuel, hpb, hrec] at h
      | some r2 =>
        obtain ⟨b2, v2⟩ := r2
        simp only [repeat_fuel, hpb, hrec, Option.some.injEq, Prod.mk.injEq] at h
        obtain ⟨hb, _⟩ := h
        subst hb
        exact (ih buf2 _ v2 hrec).trans (hp buf buf2 out hpb)

theorem sp_zero_or_more {α : Type} (p : Parser α) (hp : SuffixPreserving p) :
    ∀ fuel buf b v, zero_or_more p fuel buf = some (Except.ok (b, v)) →
      b <:+ buf := by
  intro fuel buf b v h
  cases hr : repeat_fuel p fuel buf with
  | none => simp [zero_or_more, hr] at h
  | some r =>
    obtain ⟨b0, v0⟩ := r
    simp only [zero_or_more, hr, Option.some.injEq, Except.ok.injEq,
      Prod.mk.injEq] at h
    obtain ⟨hb, _⟩ := h
    subst hb
    exact sp_repeat_fuel p hp fuel buf _ v0 hr

theorem sp_one_or_more {α : Type} (p : Parser α) (hp : SuffixPreserving p) :
    ∀ fuel buf b v, one_or_more p fuel buf = some (Except.ok (b, v)) →
      b <:+ buf := by
  intro fuel buf b v h
  cases hr : repeat_fuel p fuel buf with
  | none => simp [one_or_more, hr] at h
  | some r =>
    obtain ⟨b0, v0⟩ := r
    simp only [one_or_more, hr] at h
    by_cases hv : v0.isEmpty
    · rw [if_pos hv] at h
      simp [par_err] at h
    · rw [if_neg hv] at h
      simp only [Option.some.injEq, Except.ok.injEq, Prod.mk.injEq] at h
      obtain ⟨hb, _⟩ := h
      subst hb
      exact sp_repeat_fuel p hp fuel buf _ v0 hr

theorem sp_parse_number : SuffixPreserving parse_number := by
  intro buf b v h
  cases ht : parse_tok_with_rule num_rule buf with
  | error e => simp [parse_number, ht] at h
  | ok r =>
    obtain ⟨buf2, tok⟩ := r
    cases hf : parse_f64 tok with
    | none => simp [parse_number, ht, hf, par_err] at h
    | some q =>
      simp only [parse_number, ht, hf, Except.ok.injEq, Prod.mk.injEq] at h
      obtain ⟨hb, _⟩ := h
      subst hb
      exact sp_parse_tok_with_rule num_rule buf _ tok ht

theorem sp_parse_identifier : SuffixPreserving parse_identifier := by
  intro buf b v h
  cases ht : parse_tok_with_rule ident_rule buf with
  | error e => simp [parse_identifier, ht] at h
  | ok r =>
    obtain ⟨buf2, tok⟩ := r
    simp only [parse_identifier, ht] at h
    by_cases hd : first_is_digit tok
    · rw [if_pos hd] at h
      simp [par_err] at h
    · rw [if_neg hd] at h
      by_cases hk : KEYWORDS.contains (String.mk tok)
      · rw [if_pos hk] at h
        simp [par_err] at h
      · rw [if_neg hk] at h
        simp only [Except.ok.injEq, Prod.mk.injEq] at h
        obtain ⟨hb, _⟩ := h
        subst hb
        exact sp_parse_tok_with_rule ident_rule buf _ tok ht

/-- C6: every parser built from this library's primitives and combinators
returns, on success, a remaining input that is a suffix of (or equal to)
the input it was given: each primitive satisfies `SuffixPreserving`
outright, and each combinator preserves it, assuming it of the
sub-parsers (for the fuel-indexed repetition loops, stated over every
fuel). -/
theorem suffix_invariant :
    (∀ s, SuffixPreserving (parse_literal s)) ∧
    (∀ ls, SuffixPreserving (parse_literals ls)) ∧
    (∀ rule, SuffixPreserving (parse_tok_with_rule rule)) ∧
    SuffixPreserving parse_number ∧
    SuffixPreserving parse_identifier ∧
    (∀ {α : Type} (p : Parser α), SuffixPreserving p →
      SuffixPreserving (option p)) ∧
    (∀ {α β : Type} (a : Parser α) (b : Parser β), SuffixPreserving a →
      SuffixPreserving b → SuffixPreserving (and a b)) ∧
    (∀ {α : Type} (p1 p2 : Parser α), SuffixPreserving p1 →
      SuffixPreserving p2 → SuffixPreserving (or p1 p2)) ∧
    (∀ {α β : Type} (p : Parser α) (f : α → β), SuffixPreserving p →
      SuffixPreserving (map p f)) ∧
    (∀ {α : Type} (p : Parser α), SuffixPreserving p →
      ∀ fuel buf b v, zero_or_more p fuel buf = some (Except.ok (b, v)) →
        b <:+ buf) ∧
    (∀ {α : Type} (p : Parser α), SuffixPreserving p →
      ∀ fuel buf b v, one_or_more p fuel buf = some (Except.ok (b, v)) →
        b <:+ buf) :=
  ⟨sp_parse_literal, sp_parse_literals, sp_parse_tok_with_rule,
    sp_parse_number, sp_parse_identifier,
    fun p hp => sp_option p hp,
    fun a b ha hb => sp_and a b ha hb,
    fun p1 p2 h1 h2 => sp_or p1 p2 h1 h2,
    fun p f hp => sp_map p f hp,
    fun p hp => sp_zero_or_more p hp,
    fun p hp => sp_one_or_more p hp⟩

/-- Witness for C6: `parse_literal "ab"` on `"abc"` leaves `"c"`, a
suffix of the input. -/
theorem suffix_invariant_witness : ['c'] <:+ ['a','b','c'] :=
  suffix_invariant.1 ['a','b'] ['a','b','c'] ['c'] ['a','b'] (by decide)

end Parsley
